import Mathlib

namespace BHS

/-! Shallow embedding of the configparser-backed state used by the BHS
deployment scripts (src/_inscommon.py, src/inserv.py, src/inrest.py,
src/inwebapp.py).  A `Store` models `ConfigParser._sections`: an ordered
association list from section name to an ordered association list from
option key to value.  A `none` value models an option parsed with
`allow_no_value=True` and no value given.  Interpolation is not modelled:
all values are taken to be free of interpolation placeholders, on which
`ExtendedInterpolation` behaves as the identity. -/

abbrev Value := Option String

abbrev Sect := List (String × Value)

abbrev Store := List (String × Sect)

/-- Lookup of an option key inside one section (first match, as in a dict). -/
def lookupOpt : Sect → String → Option Value
  | [], _ => none
  | (o, v) :: rest, k => if o = k then some v else lookupOpt rest k

/-- Lookup of a section by name (first match, as in a dict). -/
def lookupSec : Store → String → Option Sect
  | [], _ => none
  | (s, sec) :: rest, k => if s = k then some sec else lookupSec rest k

/-- Raw stored value at (section, option key): `none` when the section or the
option is absent, `some v` when present with stored value `v`. -/
def getRaw (st : Store) (s o : String) : Option Value :=
  match lookupSec st s with
  | none => none
  | some sec => lookupOpt sec o

/-- Dict-style update of one option within a section: overwrite in place if
the key exists, else append at the end (insertion order preserved). -/
def setOptSec : Sect → String → Value → Sect
  | [], o, v => [(o, v)]
  | (o', v') :: rest, o, v =>
    if o' = o then (o', v) :: rest else (o', v') :: setOptSec rest o v

/-- Dict-style update of (section, option key) in the whole store; a missing
section is appended at the end (this is how `ConfigParser.read` merges). -/
def setOpt : Store → String → String → Value → Store
  | [], s, o, v => [(s, [(o, v)])]
  | (s', sec) :: rest, s, o, v =>
    if s' = s then (s', setOptSec sec o v) :: rest else (s', sec) :: setOpt rest s o v

theorem lookupOpt_setOptSec (sec : Sect) (o k : String) (v : Value) :
    lookupOpt (setOptSec sec o v) k = if k = o then some v else lookupOpt sec k := by
  induction sec with
  | nil =>
    by_cases h : k = o
    · simp [setOptSec, lookupOpt, h]
    · have h' : ¬ o = k := fun hh => h hh.symm
      simp [setOptSec, lookupOpt, h, h']
  | cons hd tl ih =>
    obtain ⟨o', v'⟩ := hd
    simp only [setOptSec]
    by_cases h1 : o' = o
    · subst h1
      simp only [if_pos rfl]
      by_cases h2 : o' = k
      · subst h2
        simp [lookupOpt]
      · have h2' : ¬ k = o' := fun hh => h2 hh.symm
        simp [lookupOpt, h2, h2']
    · simp only [if_neg h1]
      by_cases h2 : o' = k
      · subst h2
        have h1' : ¬ o' = o := h1
        simp [lookupOpt, h1']
      · simp [lookupOpt, h2, ih]

theorem lookupSec_setOpt (st : Store) (s o k : String) (v : Value) :
    lookupSec (setOpt st s o v) k =
      if k = s then
        some (match lookupSec st s with
              | none => [(o, v)]
              | some sec => setOptSec sec o v)
      else lookupSec st k := by
  induction st with
  | nil =>
    by_cases h : k = s
    · subst h
      simp [setOpt, lookupSec]
    · have h' : ¬ s = k := fun hh => h hh.symm
      simp [setOpt, lookupSec, h, h']
  | cons hd tl ih =>
    obtain ⟨s₀, sec₀⟩ := hd
    simp only [setOpt]
    by_cases h1 : s₀ = s
    · subst h1
      simp only [if_pos rfl]
      by_cases h2 : s₀ = k
      · subst h2
        simp [lookupSec]
      · have h2' : ¬ k = s₀ := fun hh => h2 hh.symm
        simp [lookupSec, h2, h2']
    · simp only [if_neg h1]
      by_cases h2 : s₀ = k
      · have hks : ¬ k = s := fun hh => h1 (h2.trans hh)
        simp [lookupSec, h2, hks]
      · simp only [lookupSec, if_neg h2, ih]
        by_cases h3 : k = s
        · simp [h3, lookupSec, if_neg h1]
        · simp [h3]

theorem getRaw_setOpt (st : Store) (s o s' o' : String) (v : Value) :
    getRaw (setOpt st s o v) s' o' =
      if s' = s ∧ o' = o then some v else getRaw st s' o' := by
  unfold getRaw
  rw [lookupSec_setOpt]
  by_cases hs : s' = s
  · subst hs
    cases hsec : lookupSec st s' with
    | none =>
      by_cases ho : o' = o
      · simp [lookupOpt, ho]
      · have ho' : ¬ o = o' := fun hh => ho hh.symm
        simp [lookupOpt, ho, ho']
    | some sec =>
      by_cases ho : o' = o
      · simp [lookupOpt_setOptSec, ho]
      · simp [lookupOpt_setOptSec, ho]
  · have hns : ¬ (s' = s ∧ o' = o) := fun hh => hs hh.1
    simp [hs, hns]

theorem lookupSec_setOpt_isSome (st : Store) (s o k : String) (v : Value) :
    (lookupSec (setOpt st s o v) k).isSome = true ↔
      (k = s ∨ (lookupSec st k).isSome = true) := by
  rw [lookupSec_setOpt]
  by_cases h : k = s
  · simp [h]
  · simp [h]

/-! ## Document loading (`ConfigParser.read` over a list of files)

A `Doc` is one parsed configuration file flattened into its ordered list of
assignments (section, option-as-written, value).  `readDoc` replays those
assignments into a store, applying the parser's `optionxform` to the option
key (the identity for `_inscommon.Config`, which sets `optionxform = str`;
`String.toLower` for the default parser kept by `inserv.Config` and
`inrest.Config`).  `ConfigParser.read(paths)` is `loadDocs` over the parsed
documents in path order: later files overwrite earlier ones at the
(section, option) granularity, untouched pairs are kept. -/

abbrev Doc := List (String × String × Value)

def readDoc (xf : String → String) (st : Store) (d : Doc) : Store :=
  d.foldl (fun acc a => setOpt acc a.1 (xf a.2.1) a.2.2) st

def loadDocs (xf : String → String) (st : Store) (docs : List Doc) : Store :=
  docs.foldl (readDoc xf) st

/-- Left-biased choice on optional values ("keep what a later assignment
already decided, else fall back"). -/
def optOr : Option Value → Option Value → Option Value
  | some v, _ => some v
  | none, y => y

/-- The value of the last assignment inside one document to section `s` and
transformed option key `o`, if the document assigns that pair at all:
entries further right in the list take precedence. -/
def docLast (xf : String → String) : Doc → String → String → Option Value
  | [], _, _ => none
  | a :: d, s, o =>
    optOr (docLast xf d s o) (if a.1 = s ∧ xf a.2.1 = o then some a.2.2 else none)

/-- The value assigned to (s, o) by the last document in the list that
assigns it, if any: later documents take precedence. -/
def lastDefined (xf : String → String) : List Doc → String → String → Option Value
  | [], _, _ => none
  | d :: docs, s, o => optOr (lastDefined xf docs s o) (docLast xf d s o)

theorem optOr_none (x : Option Value) : optOr x none = x := by
  cases x <;> rfl

theorem optOr_assoc (x y z : Option Value) : optOr (optOr x y) z = optOr x (optOr y z) := by
  cases x <;> rfl

theorem getRaw_readDoc (xf : String → String) (d : Doc) (st : Store) (s o : String) :
    getRaw (readDoc xf st d) s o = optOr (docLast xf d s o) (getRaw st s o) := by
  induction d generalizing st with
  | nil => simp [readDoc, docLast, optOr]
  | cons a d ih =>
    have step : readDoc xf st (a :: d) = readDoc xf (setOpt st a.1 (xf a.2.1) a.2.2) d := rfl
    rw [step, ih]
    simp only [docLast]
    rw [optOr_assoc]
    congr 1
    rw [getRaw_setOpt]
    by_cases h : a.1 = s ∧ xf a.2.1 = o
    · rw [if_pos (⟨h.1.symm, h.2.symm⟩ : s = a.1 ∧ o = xf a.2.1), if_pos h]
      rfl
    · have h' : ¬ (s = a.1 ∧ o = xf a.2.1) := fun hh => h ⟨hh.1.symm, hh.2.symm⟩
      rw [if_neg h', if_neg h]
      rfl

theorem getRaw_loadDocs (xf : String → String) (docs : List Doc) (st : Store) (s o : String) :
    getRaw (loadDocs xf st docs) s o = optOr (lastDefined xf docs s o) (getRaw st s o) := by
  induction docs generalizing st with
  | nil => simp [loadDocs, lastDefined, optOr]
  | cons d docs ih =>
    have step : loadDocs xf st (d :: docs) = loadDocs xf (readDoc xf st d) docs := rfl
    rw [step, ih, getRaw_readDoc]
    simp only [lastDefined]
    rw [optOr_assoc]

/-- C1: loading an ordered list of configuration documents into one parser
(`Config.__init__` calls `self.read([credentials, (common,) config])`) and
then reading any (section, option) pair yields exactly the value assigned by
the last document in the list that assigns that pair, and a pair assigned
only by earlier documents keeps that earlier value.  Stated for an arbitrary
`optionxform` (both the identity used by `_inscommon.Config` and the
lower-casing default kept by `inserv.Config`). -/
theorem config_override_law (xf : String → String) (docs : List Doc) (s o : String) :
    getRaw (loadDocs xf [] docs) s o = lastDefined xf docs s o := by
  rw [getRaw_loadDocs]
  simp [getRaw, lookupSec, optOr_none]

/-! ## configparser access methods

`cfgGet` models `ConfigParser.get(section, option)` with no fallback: a
missing section raises `NoSectionError`, a missing option raises
`NoOptionError`, a present option yields its stored value (possibly `None`
under `allow_no_value=True`).  `hasOption` models `has_option`, `setOptE`
models `set` (which refuses a missing section).  Section names are never
case-folded; option keys go through `optionxform`. -/

inductive CfgErr where
  | noSection (s : String)
  | noOption (s o : String)
deriving DecidableEq

def cfgGet (xf : String → String) (st : Store) (s o : String) : Except CfgErr Value :=
  match lookupSec st s with
  | none => .error (.noSection s)
  | some sec =>
    match lookupOpt sec (xf o) with
    | none => .error (.noOption s o)
    | some v => .ok v

def hasOption (xf : String → String) (st : Store) (s o : String) : Bool :=
  match lookupSec st s with
  | none => false
  | some sec => (lookupOpt sec (xf o)).isSome

def setOptE (xf : String → String) (st : Store) (s o : String) (v : Value) :
    Except CfgErr Store :=
  match lookupSec st s with
  | none => .error (.noSection s)
  | some _ => .ok (setOpt st s (xf o) v)

/-! ## C2: `Config._verfy_config`

The Python loop calls `self.get(section=ropt[0], option=ropt[1])` for every
required pair, appends `f'missing option \x7bropt\x7d'` for each falsy value
(`None` or the empty string), and afterwards raises one
`InstallationException` listing every collected violation.  Because `get`
is called with no fallback, a pair whose section or option is entirely
absent makes `get` raise `NoSectionError`/`NoOptionError` immediately,
and the batch report never happens. -/

abbrev ReqOpt := String × String

inductive VerifyErr where
  /-- A `NoSectionError`/`NoOptionError` escaping from `self.get`. -/
  | parserErr (e : CfgErr)
  /-- The single `InstallationException` naming every collected violation. -/
  | installExc (violations : List ReqOpt)
deriving DecidableEq

/-- Python truthiness of an option value: `None` and `''` are falsy. -/
def truthy : Value → Bool
  | none => false
  | some s => !(s == "")

def collectViolations (xf : String → String) (st : Store) :
    List ReqOpt → Except CfgErr (List ReqOpt)
  | [] => .ok []
  | r :: rs =>
    match cfgGet xf st r.1 r.2 with
    | .error e => .error e
    | .ok v =>
      match collectViolations xf st rs with
      | .error e => .error e
      | .ok vs => .ok (if truthy v then vs else r :: vs)

def verfyConfig (xf : String → String) (st : Store) (required : List ReqOpt) :
    Except VerifyErr Unit :=
  match collectViolations xf st required with
  | .error e => .error (.parserErr e)
  | .ok [] => .ok ()
  | .ok vs => .error (.installExc vs)

def isOkE {ε α : Type} : Except ε α → Bool
  | .ok _ => true
  | .error _ => false

/-- A required pair is a violation when its value is present but falsy
(`None` or empty). -/
def violated (xf : String → String) (st : Store) (r : ReqOpt) : Bool :=
  match cfgGet xf st r.1 r.2 with
  | .ok v => !truthy v
  | .error _ => true

theorem collectViolations_eq_filter (xf : String → String) (st : Store)
    (required : List ReqOpt)
    (h : ∀ r ∈ required, isOkE (cfgGet xf st r.1 r.2) = true) :
    collectViolations xf st required = .ok (required.filter (violated xf st)) := by
  induction required with
  | nil => rfl
  | cons r rs ih =>
    have hr : isOkE (cfgGet xf st r.1 r.2) = true := h r (List.mem_cons_self r rs)
    have hrs : ∀ x ∈ rs, isOkE (cfgGet xf st x.1 x.2) = true :=
      fun x hx => h x (List.mem_cons_of_mem r hx)
    cases hget : cfgGet xf st r.1 r.2 with
    | error e => rw [hget] at hr; simp [isOkE] at hr
    | ok v =>
      simp only [collectViolations, hget, ih hrs]
      by_cases ht : truthy v = true
      · have hv : violated xf st r = false := by simp [violated, hget, ht]
        simp [ht, List.filter_cons, hv]
      · have ht' : truthy v = false := by
          cases hb : truthy v
          · rfl
          · exact absurd hb ht
        have hv : violated xf st r = true := by simp [violated, hget, ht']
        simp [ht', List.filter_cons, hv]

/-- C2 counterexample: the claim says the verification step batch-reports
every pair that is "missing or resolves to an empty value".  Take a store
whose section "S" holds option "a" with the empty value and no option "b",
with required pairs [("S","a"), ("S","b")]: the code raises the
`NoOptionError` coming from `self.get` on ("S","b") — a single parser
error naming neither pair — instead of one installation failure naming
both. -/
theorem verify_missing_scan_cex :
    verfyConfig id [("S", [("a", some "")])] [("S", "a"), ("S", "b")]
        = .error (.parserErr (.noOption "S" "b"))
    ∧ verfyConfig id [("S", [("a", some "")])] [("S", "a"), ("S", "b")]
        ≠ .error (.installExc [("S", "a"), ("S", "b")]) := by
  constructor
  · rfl
  · intro h
    simp [verfyConfig, collectViolations, cfgGet, lookupSec, lookupOpt] at h

/-- C2 (amended): when every required (section, option) pair is at least
present in the loaded configuration, `_verfy_config` raises exactly one
installation failure naming, in order, every pair whose value is empty
(`None` or `''`), and raises nothing when there is no such pair.  A pair
whose section or option is entirely absent instead surfaces as the parser's
own lookup error at the first absent pair (see the counterexample). -/
theorem verify_batch_when_present (xf : String → String) (st : Store)
    (required : List ReqOpt)
    (h : ∀ r ∈ required, isOkE (cfgGet xf st r.1 r.2) = true) :
    verfyConfig xf st required =
      (match required.filter (violated xf st) with
       | [] => .ok ()
       | vs => .error (.installExc vs)) := by
  unfold verfyConfig
  rw [collectViolations_eq_filter xf st required h]
  cases required.filter (violated xf st) with
  | nil => rfl
  | cons a l => rfl

/-- Witness for `verify_batch_when_present`: a configuration where both
required pairs are present and both are empty is rejected with the batch
failure naming both, and a configuration with both pairs non-empty
passes. -/
theorem verify_batch_when_present_witness :
    verfyConfig id [("S", [("a", some ""), ("b", none)])] [("S", "a"), ("S", "b")]
        = .error (.installExc [("S", "a"), ("S", "b")])
    ∧ verfyConfig id [("S", [("a", some "x"), ("b", some "y")])] [("S", "a"), ("S", "b")]
        = .ok () := by
  constructor
  · rw [verify_batch_when_present id [("S", [("a", some ""), ("b", none)])]
      [("S", "a"), ("S", "b")] (by decide)]
    rfl
  · rw [verify_batch_when_present id [("S", [("a", some "x"), ("b", some "y")])]
      [("S", "a"), ("S", "b")] (by decide)]
    rfl

/-! ## C7: case handling of option keys

`_inscommon.Config.__init__` (and hence `inwebapp.WebAppConfig`) sets
`self.optionxform = str`, so option keys are stored and looked up exactly
as written.  `inserv.Config.__init__` and `inrest.Config.__init__` never
touch `optionxform`, so they keep configparser's default lower-casing
transform: option keys are case-folded there, and two option names
differing only in case collide. -/

/-- Python `str.lower` restricted to the ASCII names appearing in these
configuration files (configparser's default `optionxform`). -/
def pyLower (s : String) : String :=
  String.mk (s.toList.map Char.toLower)

/-- C7 counterexample: in `inserv.Config` (default `optionxform`,
lower-casing), after loading a document assigning option "Foo" and a later
one assigning option "foo" in the same section, querying "Foo" yields the
value assigned to "foo" — the two spellings are one key, not distinct
keys — and the key "Foo" is not even stored: the claim fails for that
service flavor. -/
theorem option_case_folding_cex :
    cfgGet pyLower
        (loadDocs pyLower [] [[("S", "Foo", some "1")], [("S", "foo", some "2")]])
        "S" "Foo" = .ok (some "2")
    ∧ getRaw (loadDocs pyLower [] [[("S", "Foo", some "1")]]) "S" "Foo" = none := by
  constructor
  · rfl
  · rfl

/-- C7 (amended): option lookup is case-preserving for the configuration
class of `_inscommon.py` (shared by `inwebapp.WebAppConfig`), whose
`optionxform` is the identity: a stored option is retrievable under exactly
its original casing, and storing under one casing never disturbs any other
key, so names differing only in case stay distinct.  The classes of
`inserv.py` and `inrest.py` keep the default lower-casing transform and
case-fold instead (see the counterexample). -/
theorem option_case_preserving_id (st : Store) (s o k : String) (v : Value)
    (h : k ≠ o) :
    cfgGet id (setOpt st s o v) s o = .ok v
    ∧ getRaw (setOpt st s o v) s k = getRaw st s k := by
  constructor
  · unfold cfgGet
    rw [lookupSec_setOpt]
    simp only [if_pos rfl]
    cases hsec : lookupSec st s with
    | none => simp [lookupOpt]
    | some sec => simp [lookupOpt_setOptSec]
  · rw [getRaw_setOpt]
    have hnk : ¬ (s = s ∧ k = o) := fun hh => h hh.2
    rw [if_neg hnk]

/-- Witness for `option_case_preserving_id`: storing "Opt" leaves the
differently-cased key "opt" untouched and "Opt" retrievable as written. -/
theorem option_case_preserving_id_witness :
    cfgGet id (setOpt [("S", [("opt", some "low")])] "S" "Opt" (some "up")) "S" "Opt"
        = .ok (some "up")
    ∧ getRaw (setOpt [("S", [("opt", some "low")])] "S" "Opt" (some "up")) "S" "opt"
        = getRaw [("S", [("opt", some "low")])] "S" "opt" :=
  option_case_preserving_id [("S", [("opt", some "low")])] "S" "Opt" "opt"
    (some "up") (by decide)

/-! ## String and path helpers

Kernel-reducible re-implementations of the string operations the scripts
use (`str.startswith`, `str.endswith`, `str.strip`, `str.rstrip`,
`os.path.join`, `os.path.basename`, `os.path.dirname`), written over the
character list of the string.  `Char.isWhitespace` covers the whitespace
characters occurring in these files. -/

instance exceptDecEq {ε α : Type} [DecidableEq ε] [DecidableEq α] :
    DecidableEq (Except ε α) := fun a b =>
  match a, b with
  | .error e, .error f =>
    if h : e = f then .isTrue (congrArg Except.error h)
    else .isFalse (fun hh => h (Except.error.inj hh))
  | .ok x, .ok y =>
    if h : x = y then .isTrue (congrArg Except.ok h)
    else .isFalse (fun hh => h (Except.ok.inj hh))
  | .error _, .ok _ => .isFalse (fun hh => Except.noConfusion hh)
  | .ok _, .error _ => .isFalse (fun hh => Except.noConfusion hh)

def strStartsWith (s pre : String) : Bool :=
  pre.toList.isPrefixOf s.toList

def strEndsWith (s suf : String) : Bool :=
  suf.toList.isSuffixOf s.toList

/-- Python `str.strip()`. -/
def pyStrip (s : String) : String :=
  String.mk
    (((s.toList.dropWhile Char.isWhitespace).reverse.dropWhile Char.isWhitespace).reverse)

/-- Python `str.rstrip()`. -/
def pyRstrip (s : String) : String :=
  String.mk ((s.toList.reverse.dropWhile Char.isWhitespace).reverse)

/-- `os.path.join(a, b)` on POSIX for one extra component. -/
def osJoin (a b : String) : String :=
  if strStartsWith b "/" then b
  else if a = "" || strEndsWith a "/" then a ++ b
  else a ++ "/" ++ b

/-- `os.path.basename`: everything after the last slash. -/
def basename (p : String) : String :=
  String.mk ((p.toList.reverse.takeWhile (fun c => c ≠ '/')).reverse)

/-- `os.path.dirname`: everything up to the last slash, with trailing
slashes stripped unless the result is all slashes. -/
def dirname (p : String) : String :=
  let head := (p.toList.reverse.dropWhile (fun c => c ≠ '/')).reverse
  if head.isEmpty then ""
  else if head.all (fun c => c = '/') then String.mk head
  else String.mk ((head.reverse.dropWhile (fun c => c = '/')).reverse)

/-! ## C3: `LocalModuleManager._module_file` / `_find_module`

`_module_file` keeps a name already ending in `.py` or `.wsgi` and appends
`.py` otherwise.  `_find_module` joins the candidate filename onto every
lookup path, keeps those joined paths that exist and are regular files
(modelled by membership in `regFiles`, the list of existing regular files),
and then: more than one match raises naming all matches, zero matches
raises naming all lookup paths, exactly one match is returned. -/

def moduleFile (m : String) : String :=
  if strEndsWith m ".py" || strEndsWith m ".wsgi" then m else m ++ ".py"

inductive FindErr where
  /-- "module located in multiple locations", naming every match. -/
  | ambiguous (m : String) (found : List String)
  /-- "module was not located in none of", naming every searched path. -/
  | notFound (m : String) (searched : List String)
deriving DecidableEq

def findModule (regFiles lookupPaths : List String) (m : String)
    (isRegularFile : Bool) : Except FindErr String :=
  let moduleF := if isRegularFile then m else moduleFile m
  let modulePath := lookupPaths.filterMap (fun path =>
    if regFiles.contains (osJoin path moduleF) then some (osJoin path moduleF) else none)
  if modulePath.length > 1 then .error (.ambiguous m modulePath)
  else
    match modulePath with
    | [] => .error (.notFound m lookupPaths)
    | q :: _ => .ok q

/-- The matches described by the spec: every lookup path under which the
candidate filename is an existing regular file, in lookup order. -/
def specMatches (regFiles lookupPaths : List String) (moduleF : String) : List String :=
  (lookupPaths.filter (fun path => regFiles.contains (osJoin path moduleF))).map
    (fun path => osJoin path moduleF)

theorem filterMap_if_eq_map_filter {α β : Type} (p : α → Bool) (f : α → β)
    (l : List α) :
    l.filterMap (fun x => if p x then some (f x) else none)
      = (l.filter p).map f := by
  induction l with
  | nil => rfl
  | cons hd tl ih =>
    cases h : p hd with
    | true => simp [List.filterMap_cons, List.filter_cons, h, ih]
    | false => simp [List.filterMap_cons, List.filter_cons, h, ih]

theorem filterMap_eq_specMatches (regFiles lookupPaths : List String) (moduleF : String) :
    lookupPaths.filterMap (fun path =>
        if regFiles.contains (osJoin path moduleF) then some (osJoin path moduleF) else none)
      = specMatches regFiles lookupPaths moduleF :=
  filterMap_if_eq_map_filter (fun path => regFiles.contains (osJoin path moduleF))
    (fun path => osJoin path moduleF) lookupPaths

/-- C3: for every module name and ordered lookup-path list, the candidate
filename keeps a `.py`/`.wsgi` suffix and gains `.py` otherwise, and
`_find_module` collects every lookup path under which that filename is an
existing regular file: exactly one match is returned, zero matches raise an
error naming all searched lookup paths, two or more matches raise an error
naming every matching path. -/
theorem find_module_trichotomy (regFiles lookupPaths : List String) (m : String) :
    ((strEndsWith m ".py" || strEndsWith m ".wsgi") = true → moduleFile m = m)
    ∧ ((strEndsWith m ".py" || strEndsWith m ".wsgi") = false →
        moduleFile m = m ++ ".py")
    ∧ (∀ q, specMatches regFiles lookupPaths (moduleFile m) = [q] →
        findModule regFiles lookupPaths m false = .ok q)
    ∧ (specMatches regFiles lookupPaths (moduleFile m) = [] →
        findModule regFiles lookupPaths m false = .error (.notFound m lookupPaths))
    ∧ (2 ≤ (specMatches regFiles lookupPaths (moduleFile m)).length →
        findModule regFiles lookupPaths m false
          = .error (.ambiguous m (specMatches regFiles lookupPaths (moduleFile m)))) := by
  refine ⟨?_, ?_, ?_, ?_, ?_⟩
  · intro h; simp [moduleFile, h]
  · intro h; simp [moduleFile, h]
  · intro q h
    simp only [findModule, Bool.false_eq_true, if_false, filterMap_eq_specMatches, h]
    rfl
  · intro h
    simp only [findModule, Bool.false_eq_true, if_false, filterMap_eq_specMatches, h]
    rfl
  · intro h
    simp only [findModule, Bool.false_eq_true, if_false, filterMap_eq_specMatches]
    have hgt : (specMatches regFiles lookupPaths (moduleFile m)).length > 1 := h
    simp [hgt]

/-- Witness for `find_module_trichotomy`: with lookup paths A and B and the
file existing only under B, location returns B's path; with it existing
under both, the error names both matches; with it existing under neither,
the error names both searched paths. -/
theorem find_module_trichotomy_witness :
    findModule ["B/app.py"] ["A", "B"] "app" false = .ok "B/app.py"
    ∧ findModule ["A/app.py", "B/app.py"] ["A", "B"] "app" false
        = .error (.ambiguous "app" ["A/app.py", "B/app.py"])
    ∧ findModule [] ["A", "B"] "app" false = .error (.notFound "app" ["A", "B"]) := by
  refine ⟨?_, ?_, ?_⟩
  · exact (find_module_trichotomy ["B/app.py"] ["A", "B"] "app").2.2.1 "B/app.py" (by decide)
  · exact (find_module_trichotomy ["A/app.py", "B/app.py"] ["A", "B"] "app").2.2.2.2 (by decide)
  · exact (find_module_trichotomy [] ["A", "B"] "app").2.2.2.1 (by decide)

/-! ## C4: `LocalModuleManager.install_main_module`

A `FileSys` is the association of paths to file contents (a list of lines,
each carrying its trailing newline).  The method locates the main module,
then executes `open(origin, 'r')` together with `open(target, 'w')`: the
`'w'` mode creates, or truncates, the target file *before* the first line
of the origin is inspected.  If that first line does not start with `#!`
the method raises, leaving the empty target file behind; otherwise it
writes the rewritten interpreter directive followed by the remaining
origin lines.  (The final `chmod` subprocess call is not modelled; it is
invoked with `must_succeed=False` and cannot raise.) -/

abbrev FileSys := List (String × List String)

def fsRead : FileSys → String → Option (List String)
  | [], _ => none
  | (q, c) :: fs, p => if q = p then some c else fsRead fs p

def fsWrite : FileSys → String → List String → FileSys
  | [], p, ls => [(p, ls)]
  | (q, c) :: fs, p, ls => if q = p then (q, ls) :: fs else (q, c) :: fsWrite fs p ls

inductive MainErr where
  | find (e : FindErr)
  /-- "First code line in main module does not seem to contain shebang". -/
  | noShebang (m : String)
deriving DecidableEq

def installMainModule (fs : FileSys) (lookupPaths : List String)
    (venvPath baseDir mainModule : String) : FileSys × Except MainErr String :=
  match findModule (fs.map (fun f => f.1)) lookupPaths mainModule false with
  | .error e => (fs, .error (.find e))
  | .ok mainModuleFile =>
    let target := osJoin baseDir (basename (moduleFile mainModule))
    let originLines := (fsRead fs mainModuleFile).getD []
    let fsOpened := fsWrite fs target []
    match originLines with
    | [] => (fsOpened, .error (.noShebang mainModule))
    | first :: rest =>
      if strStartsWith first "#!" then
        let shebang := "#!" ++ osJoin venvPath (osJoin "bin" "python3") ++ "\n"
        (fsWrite fsOpened target (shebang :: rest), .ok target)
      else (fsOpened, .error (.noShebang mainModule))

/-- C4 counterexample: installing main module "app" whose file starts with
"print(1)" (no interpreter directive) does fail, but the target file
system state is changed before the failure: the target path now holds an
empty file, created by opening it in write mode before the first-line
check. -/
theorem install_main_no_shebang_cex :
    (installMainModule [("../app.py", ["print(1)\n"])] ["../"] "/opt/venv" "/srv" "app").2
        = .error (.noShebang "app")
    ∧ (installMainModule [("../app.py", ["print(1)\n"])] ["../"] "/opt/venv" "/srv" "app").1
        ≠ [("../app.py", ["print(1)\n"])]
    ∧ fsRead
        (installMainModule [("../app.py", ["print(1)\n"])] ["../"] "/opt/venv" "/srv" "app").1
        "/srv/app.py" = some [] := by
  refine ⟨rfl, by decide, rfl⟩

/-- C4 (amended): for every source file whose first line does not begin
with the interpreter marker "#!", installing it as the main module fails
with an error, and the only change to the target file system before that
failure is that the target path has been opened for writing and therefore
holds an empty (newly created or truncated) file; no content is written
to it. -/
theorem install_main_no_shebang_amended (fs : FileSys) (lookupPaths : List String)
    (venvPath baseDir mainModule originPath : String) (first : String)
    (rest : List String)
    (hfind : findModule (fs.map (fun f => f.1)) lookupPaths mainModule false
      = .ok originPath)
    (hread : fsRead fs originPath = some (first :: rest))
    (hsheb : strStartsWith first "#!" = false) :
    installMainModule fs lookupPaths venvPath baseDir mainModule
      = (fsWrite fs (osJoin baseDir (basename (moduleFile mainModule))) [],
         .error (.noShebang mainModule)) := by
  unfold installMainModule
  rw [hfind]
  simp only [hread, Option.getD_some, hsheb, Bool.false_eq_true, if_false]

/-- Witness for `install_main_no_shebang_amended` at the counterexample
input. -/
theorem install_main_no_shebang_amended_witness :
    installMainModule [("../app.py", ["print(1)\n"])] ["../"] "/opt/venv" "/srv" "app"
      = (fsWrite [("../app.py", ["print(1)\n"])] (osJoin "/srv" (basename (moduleFile "app"))) [],
         .error (.noShebang "app")) :=
  install_main_no_shebang_amended [("../app.py", ["print(1)\n"])] ["../"]
    "/opt/venv" "/srv" "app" "../app.py" "print(1)\n" [] (by decide) (by decide) (by decide)

/-! ## C5: `SubprocessAction.execute`

`execute` runs the command via `subprocess.run` with captured output and
classifies the outcome by the return code: zero is success (a debug log,
nothing raised).  Otherwise it formats one error text embedding
`str(command)`, the return code, and both captured streams
(right-stripped; an empty captured stream is shown as "N/A"), then raises
an `InstallationException` carrying that text when `must_succeed` is true,
or logs the same text as a warning and continues when it is false.
`CmdResult` models the `CompletedProcess` (which is always truthy, so the
Python guard `exec_res and exec_res.returncode == 0` reduces to the
return-code test). -/

structure CmdResult where
  returncode : Int
  stdout : String
  stderr : String
deriving DecidableEq

/-- The single-quote character, as a string. -/
def sq : String := String.mk [Char.ofNat 39]

/-- Python `str(list_of_strings)`: bracketed, comma-separated, quoted. -/
def pyReprList (xs : List String) : String :=
  "[" ++ String.intercalate ", " (xs.map (fun x => sq ++ x ++ sq)) ++ "]"

/-- Python `str.upper()` on the ASCII component names used here. -/
def pyUpper (s : String) : String :=
  String.mk (s.toList.map Char.toUpper)

/-- A captured stream as shown in the failure text: "N/A" when the stream
is empty (falsy), else the stream right-stripped. -/
def streamRepr (s : String) : String :=
  if s = "" then "N/A" else pyRstrip s

def failMessage (command : List String) (res : CmdResult) : String :=
  "Executing " ++ pyReprList command ++ " FAILED.\n"
    ++ "Return code: " ++ toString res.returncode ++ ";\n"
    ++ "Stdout: <" ++ streamRepr res.stdout ++ ">;\n"
    ++ "Stderr: <" ++ streamRepr res.stderr ++ ">"

inductive ExecOutcome where
  /-- Execution continued; `some w` when the failure text was logged as a
  warning, `none` on success. -/
  | completed (warning : Option String)
  /-- The `InstallationException` (tagged with the upper-cased component
  name) aborting the run. -/
  | raised (msg : String)
deriving DecidableEq

def execute (component : String) (command : List String) (res : CmdResult)
    (mustSucceed : Bool) : ExecOutcome :=
  if res.returncode = 0 then .completed none
  else if mustSucceed then
    .raised ("[" ++ pyUpper component ++ "] " ++ failMessage command res)
  else .completed (some (failMessage command res))

/-- `needle` occurs contiguously inside `hay`. -/
def IsSubstr (needle hay : String) : Prop :=
  ∃ a b, hay = a ++ needle ++ b

theorem isSubstr_of_eq (needle hay a b : String) (h : hay = a ++ needle ++ b) :
    IsSubstr needle hay :=
  ⟨a, b, h⟩

theorem isSubstr_extend (needle hay pre : String) (h : IsSubstr needle hay) :
    IsSubstr needle (pre ++ hay) := by
  obtain ⟨a, b, hab⟩ := h
  exact ⟨pre ++ a, b, by rw [hab]; simp [String.append_assoc]⟩

theorem failMessage_embeds (command : List String) (res : CmdResult) :
    IsSubstr (pyReprList command) (failMessage command res)
    ∧ IsSubstr (toString res.returncode) (failMessage command res)
    ∧ IsSubstr (pyRstrip res.stdout) (failMessage command res)
    ∧ IsSubstr (pyRstrip res.stderr) (failMessage command res) := by
  refine ⟨?_, ?_, ?_, ?_⟩
  · refine isSubstr_of_eq _ _ "Executing "
      (" FAILED.\n" ++ "Return code: " ++ toString res.returncode ++ ";\n"
        ++ "Stdout: <" ++ streamRepr res.stdout ++ ">;\n"
        ++ "Stderr: <" ++ streamRepr res.stderr ++ ">") ?_
    simp [failMessage, String.append_assoc]
  · refine isSubstr_of_eq _ _
      ("Executing " ++ pyReprList command ++ " FAILED.\n" ++ "Return code: ")
      (";\n" ++ "Stdout: <" ++ streamRepr res.stdout ++ ">;\n"
        ++ "Stderr: <" ++ streamRepr res.stderr ++ ">") ?_
    simp [failMessage, String.append_assoc]
  · by_cases h : res.stdout = ""
    · refine isSubstr_of_eq _ _ "" (failMessage command res) ?_
      rw [h]
      rfl
    · refine isSubstr_of_eq _ _
        ("Executing " ++ pyReprList command ++ " FAILED.\n" ++ "Return code: "
          ++ toString res.returncode ++ ";\n" ++ "Stdout: <")
        (">;\n" ++ "Stderr: <" ++ streamRepr res.stderr ++ ">") ?_
      simp [failMessage, streamRepr, h, String.append_assoc]
  · by_cases h : res.stderr = ""
    · refine isSubstr_of_eq _ _ "" (failMessage command res) ?_
      rw [h]
      rfl
    · refine isSubstr_of_eq _ _
        ("Executing " ++ pyReprList command ++ " FAILED.\n" ++ "Return code: "
          ++ toString res.returncode ++ ";\n" ++ "Stdout: <" ++ streamRepr res.stdout
          ++ ">;\n" ++ "Stderr: <")
        (">") ?_
      simp [failMessage, streamRepr, h, String.append_assoc]

/-- C5: exit code zero is success and nothing is raised; on a non-zero
exit with `must_succeed=True` the raised exception's message embeds
`str(command)`, the exit code, and both captured (right-stripped) streams;
with `must_succeed=False` the same detail is logged as a warning and
execution continues without raising. -/
theorem execute_outcome_classification (component : String) (command : List String)
    (res : CmdResult) (mustSucceed : Bool) :
    (res.returncode = 0 → execute component command res mustSucceed = .completed none)
    ∧ (res.returncode ≠ 0 → mustSucceed = true →
        ∃ msg, execute component command res mustSucceed = .raised msg
          ∧ IsSubstr (pyReprList command) msg
          ∧ IsSubstr (toString res.returncode) msg
          ∧ IsSubstr (pyRstrip res.stdout) msg
          ∧ IsSubstr (pyRstrip res.stderr) msg)
    ∧ (res.returncode ≠ 0 → mustSucceed = false →
        execute component command res mustSucceed = .completed (some (failMessage command res))
          ∧ IsSubstr (pyReprList command) (failMessage command res)
          ∧ IsSubstr (toString res.returncode) (failMessage command res)
          ∧ IsSubstr (pyRstrip res.stdout) (failMessage command res)
          ∧ IsSubstr (pyRstrip res.stderr) (failMessage command res)) := by
  refine ⟨?_, ?_, ?_⟩
  · intro h
    simp [execute, h]
  · intro h hm
    refine ⟨"[" ++ pyUpper component ++ "] " ++ failMessage command res, ?_, ?_, ?_, ?_, ?_⟩
    · simp [execute, h, hm]
    · exact isSubstr_extend _ _ ("[" ++ pyUpper component ++ "] ")
        (failMessage_embeds command res).1
    · exact isSubstr_extend _ _ ("[" ++ pyUpper component ++ "] ")
        (failMessage_embeds command res).2.1
    · exact isSubstr_extend _ _ ("[" ++ pyUpper component ++ "] ")
        (failMessage_embeds command res).2.2.1
    · exact isSubstr_extend _ _ ("[" ++ pyUpper component ++ "] ")
        (failMessage_embeds command res).2.2.2
  · intro h hm
    refine ⟨by simp [execute, h, hm], (failMessage_embeds command res).1,
      (failMessage_embeds command res).2.1, (failMessage_embeds command res).2.2.1,
      (failMessage_embeds command res).2.2.2⟩

/-- Witness for `execute_outcome_classification`: a zero exit raises
nothing, a non-zero exit under `must_succeed` raises with the full
detail. -/
theorem execute_outcome_classification_witness :
    execute "COMMAND" ["ls"] ⟨0, "", ""⟩ true = .completed none
    ∧ (∃ msg, execute "COMMAND" ["ls"] ⟨1, "boom\n", "err"⟩ true = .raised msg
        ∧ IsSubstr (pyReprList ["ls"]) msg
        ∧ IsSubstr (toString (1 : Int)) msg
        ∧ IsSubstr (pyRstrip "boom\n") msg
        ∧ IsSubstr (pyRstrip "err") msg) :=
  ⟨(execute_outcome_classification "COMMAND" ["ls"] ⟨0, "", ""⟩ true).1 rfl,
   (execute_outcome_classification "COMMAND" ["ls"] ⟨1, "boom\n", "err"⟩ true).2.1
     (by decide) rfl⟩

/-! ## C6: `SystemdServiceCreator.create`

The creator parses the unit template (with `optionxform = str`, so keys
keep their casing), conditionally overwrites `Unit.Description`,
`Service.ExecStart` and `Service.WorkingDirectory` — each only when the
supplied value is truthy (`ConfigParser.set` raises `NoSectionError` on a
missing section, hence the section hypotheses) — and serializes every
section to the target file via `ConfigParser.write` with
`space_around_delimiters=False`. -/

def writeStore (spaceAround : Bool) (st : Store) : List String :=
  st.foldr (fun sec acc =>
    ("[" ++ sec.1 ++ "]\n") ::
    (sec.2.map (fun ov =>
      match ov.2 with
      | some v => ov.1 ++ (if spaceAround then " = " else "=") ++ v ++ "\n"
      | none => ov.1 ++ "\n"))
    ++ ("\n" :: acc)) []

/-- Serialization as the spec words it: each section header, then each
stored option as key, delimiter, value with no padding around the
delimiter, then a blank line. -/
def specSerializeSec : Sect → List String
  | [] => []
  | (o, some v) :: rest => (o ++ "=" ++ v ++ "\n") :: specSerializeSec rest
  | (o, none) :: rest => (o ++ "\n") :: specSerializeSec rest

def specSerialize : Store → List String
  | [] => []
  | (s, sec) :: rest => ("[" ++ s ++ "]\n") :: (specSerializeSec sec ++ ("\n" :: specSerialize rest))

theorem map_eq_specSerializeSec (sec : Sect) :
    sec.map (fun ov =>
      match ov.2 with
      | some v => ov.1 ++ (if false then " = " else "=") ++ v ++ "\n"
      | none => ov.1 ++ "\n") = specSerializeSec sec := by
  simp only [Bool.false_eq_true, if_false]
  induction sec with
  | nil => rfl
  | cons hd tl ih =>
    obtain ⟨o, v⟩ := hd
    cases v with
    | none => simp only [List.map_cons, specSerializeSec, ih]
    | some v => simp only [List.map_cons, specSerializeSec, ih]

theorem writeStore_no_padding (st : Store) :
    writeStore false st = specSerialize st := by
  induction st with
  | nil => rfl
  | cons hd tl ih =>
    obtain ⟨s, sec⟩ := hd
    simp only [writeStore, List.foldr_cons] at ih ⊢
    rw [ih, map_eq_specSerializeSec]
    rfl

/-- Exception-propagating sequencing of the three `self.set` statements. -/
def bindStep {β : Type} (x : Except CfgErr Store) (k : Store → Except CfgErr β) :
    Except CfgErr β :=
  match x with
  | .error e => .error e
  | .ok st => k st

def sysdCreate (tmpl : Store) (execStart workingDir : String) (descr : Option String) :
    Except CfgErr (Store × List String) :=
  bindStep (if truthy descr then setOptE id tmpl "Unit" "Description" descr else .ok tmpl)
    (fun st1 =>
      bindStep (if truthy (some execStart) then
          setOptE id st1 "Service" "ExecStart" (some execStart) else .ok st1)
        (fun st2 =>
          bindStep (if truthy (some workingDir) then
              setOptE id st2 "Service" "WorkingDirectory" (some workingDir) else .ok st2)
            (fun st3 => .ok (st3, writeStore false st3))))

def condSet (b : Bool) (st : Store) (s o : String) (v : Value) : Store :=
  if b then setOpt st s o v else st

/-- The document produced by `create`: the template with exactly the
truthy fields overwritten. -/
def sysdStore (tmpl : Store) (execStart workingDir : String) (descr : Option String) : Store :=
  condSet (truthy (some workingDir))
    (condSet (truthy (some execStart))
      (condSet (truthy descr) tmpl "Unit" "Description" descr)
      "Service" "ExecStart" (some execStart))
    "Service" "WorkingDirectory" (some workingDir)

theorem getRaw_condSet (b : Bool) (st : Store) (s o s' o' : String) (v : Value) :
    getRaw (condSet b st s o v) s' o' =
      if b = true ∧ s' = s ∧ o' = o then some v else getRaw st s' o' := by
  cases b
  · simp [condSet]
  · simp [condSet, getRaw_setOpt]

theorem lookupSec_condSet_isSome (b : Bool) (st : Store) (s o k : String) (v : Value)
    (h : (lookupSec st k).isSome = true) :
    (lookupSec (condSet b st s o v) k).isSome = true := by
  cases b
  · simpa [condSet] using h
  · exact (lookupSec_setOpt_isSome st s o k v).mpr (Or.inr h)

theorem setOptE_ok (xf : String → String) (st : Store) (s o : String) (v : Value)
    (h : (lookupSec st s).isSome = true) :
    setOptE xf st s o v = .ok (setOpt st s (xf o) v) := by
  unfold setOptE
  cases hsec : lookupSec st s with
  | none => rw [hsec] at h; simp at h
  | some sec => rfl

theorem bindStep_condSet {β : Type} (b : Bool) (st : Store) (s o : String) (v : Value)
    (h : (lookupSec st s).isSome = true) (k : Store → Except CfgErr β) :
    bindStep (if b = true then setOptE id st s o v else .ok st) k
      = k (condSet b st s o v) := by
  cases b
  · simp [bindStep, condSet]
  · simp [bindStep, condSet, setOptE_ok id st s o v h, id_eq]

theorem sysdCreate_eq (tmpl : Store) (execStart workingDir : String) (descr : Option String)
    (hUnit : (lookupSec tmpl "Unit").isSome = true)
    (hService : (lookupSec tmpl "Service").isSome = true) :
    sysdCreate tmpl execStart workingDir descr =
      .ok (sysdStore tmpl execStart workingDir descr,
           writeStore false (sysdStore tmpl execStart workingDir descr)) := by
  have hS1 : (lookupSec (condSet (truthy descr) tmpl "Unit" "Description" descr)
      "Service").isSome = true :=
    lookupSec_condSet_isSome _ tmpl "Unit" "Description" "Service" descr hService
  have hS2 : (lookupSec (condSet (truthy (some execStart))
      (condSet (truthy descr) tmpl "Unit" "Description" descr)
      "Service" "ExecStart" (some execStart)) "Service").isSome = true :=
    lookupSec_condSet_isSome _ _ "Service" "ExecStart" "Service" (some execStart) hS1
  simp only [sysdCreate,
    bindStep_condSet (truthy descr) tmpl "Unit" "Description" descr hUnit,
    bindStep_condSet (truthy (some execStart)) _ "Service" "ExecStart" (some execStart) hS1,
    bindStep_condSet (truthy (some workingDir)) _ "Service" "WorkingDirectory"
      (some workingDir) hS2, sysdStore]

theorem truthy_some_iff (s : String) : truthy (some s) = true ↔ s ≠ "" := by
  simp [truthy]

/-- C6: `create` on a unit template (a document with the `Unit` and
`Service` sections) overwrites exactly the supplied truthy fields among
description, ExecStart and WorkingDirectory; every other (section, option)
pair of the template is carried to the serialized output unchanged, and
the serialization (`space_around_delimiters=False`) places no padding
around the key/value delimiter — the written lines are exactly the
spec-side `specSerialize` of the updated document. -/
theorem sysd_create_frame (tmpl : Store) (execStart workingDir : String)
    (descr : Option String)
    (hUnit : (lookupSec tmpl "Unit").isSome = true)
    (hService : (lookupSec tmpl "Service").isSome = true) :
    sysdCreate tmpl execStart workingDir descr
      = .ok (sysdStore tmpl execStart workingDir descr,
             specSerialize (sysdStore tmpl execStart workingDir descr))
    ∧ (truthy descr = true →
        getRaw (sysdStore tmpl execStart workingDir descr) "Unit" "Description" = some descr)
    ∧ (execStart ≠ "" →
        getRaw (sysdStore tmpl execStart workingDir descr) "Service" "ExecStart"
          = some (some execStart))
    ∧ (workingDir ≠ "" →
        getRaw (sysdStore tmpl execStart workingDir descr) "Service" "WorkingDirectory"
          = some (some workingDir))
    ∧ (∀ s o, ¬ (s = "Unit" ∧ o = "Description" ∧ truthy descr = true) →
        ¬ (s = "Service" ∧ o = "ExecStart" ∧ execStart ≠ "") →
        ¬ (s = "Service" ∧ o = "WorkingDirectory" ∧ workingDir ≠ "") →
        getRaw (sysdStore tmpl execStart workingDir descr) s o = getRaw tmpl s o) := by
  refine ⟨?_, ?_, ?_, ?_, ?_⟩
  · rw [sysdCreate_eq tmpl execStart workingDir descr hUnit hService, writeStore_no_padding]
  · intro h
    unfold sysdStore
    rw [getRaw_condSet, if_neg (fun hh => absurd hh.2.1 (by decide)),
      getRaw_condSet, if_neg (fun hh => absurd hh.2.1 (by decide)),
      getRaw_condSet, if_pos ⟨h, rfl, rfl⟩]
  · intro h
    unfold sysdStore
    rw [getRaw_condSet, if_neg (fun hh => absurd hh.2.2 (by decide)),
      getRaw_condSet, if_pos ⟨(truthy_some_iff execStart).mpr h, rfl, rfl⟩]
  · intro h
    unfold sysdStore
    rw [getRaw_condSet, if_pos ⟨(truthy_some_iff workingDir).mpr h, rfl, rfl⟩]
  · intro s o h1 h2 h3
    unfold sysdStore
    rw [getRaw_condSet,
      if_neg (fun hh => h3 ⟨hh.2.1, hh.2.2, (truthy_some_iff workingDir).mp hh.1⟩),
      getRaw_condSet,
      if_neg (fun hh => h2 ⟨hh.2.1, hh.2.2, (truthy_some_iff execStart).mp hh.1⟩),
      getRaw_condSet,
      if_neg (fun hh => h1 ⟨hh.2.1, hh.2.2, hh.1⟩)]

/-- Witness for `sysd_create_frame`: a template with a default description
and a `Restart` setting, overwritten only with a non-empty ExecStart,
keeps the description and the Restart pair unchanged and writes ExecStart
without delimiter padding. -/
theorem sysd_create_frame_witness :
    sysdCreate [("Unit", [("Description", some "T")]),
        ("Service", [("ExecStart", some "E"), ("Restart", some "always")])] "X" "" none
      = .ok (sysdStore [("Unit", [("Description", some "T")]),
          ("Service", [("ExecStart", some "E"), ("Restart", some "always")])] "X" "" none,
        specSerialize (sysdStore [("Unit", [("Description", some "T")]),
          ("Service", [("ExecStart", some "E"), ("Restart", some "always")])] "X" "" none))
    ∧ getRaw (sysdStore [("Unit", [("Description", some "T")]),
        ("Service", [("ExecStart", some "E"), ("Restart", some "always")])] "X" "" none)
        "Service" "ExecStart" = some (some "X")
    ∧ getRaw (sysdStore [("Unit", [("Description", some "T")]),
        ("Service", [("ExecStart", some "E"), ("Restart", some "always")])] "X" "" none)
        "Service" "Restart"
      = getRaw [("Unit", [("Description", some "T")]),
          ("Service", [("ExecStart", some "E"), ("Restart", some "always")])]
          "Service" "Restart" :=
  ⟨(sysd_create_frame [("Unit", [("Description", some "T")]),
      ("Service", [("ExecStart", some "E"), ("Restart", some "always")])] "X" "" none
      rfl rfl).1,
   (sysd_create_frame [("Unit", [("Description", some "T")]),
      ("Service", [("ExecStart", some "E"), ("Restart", some "always")])] "X" "" none
      rfl rfl).2.2.1 (by decide),
   (sysd_create_frame [("Unit", [("Description", some "T")]),
      ("Service", [("ExecStart", some "E"), ("Restart", some "always")])] "X" "" none
      rfl rfl).2.2.2.2 "Service" "Restart" (by decide) (by decide) (by decide)⟩

/-! ## C8: `Config.get_path_service_log`

If the loaded configuration already has (PATH, service-log), its value is
returned as-is (no recomputation, store untouched).  Otherwise a fresh
`ConfigParser()` reads the service's own ini file; the log directory is
the dirname of its (LOG, logfile) option when present, else the default
`/var/log/bhs`; the derived value is stored back into the document with
`self.set` (which needs the PATH section to exist) and returned.  That
secondary parser uses `allow_no_value=False`, so its `logfile` value is
never the valueless `none`; the catch-all branch therefore only covers
the option being absent. -/

def serviceLogDir (originIni : Store) : String :=
  match getRaw originIni "LOG" "logfile" with
  | some (some f) => dirname f
  | _ => "/var/log/bhs"

def getPathServiceLog (st : Store) (originIni : Store) : Except CfgErr (Value × Store) :=
  if hasOption id st "PATH" "service-log" then
    match cfgGet id st "PATH" "service-log" with
    | .error e => .error e
    | .ok v => .ok (v, st)
  else
    match setOptE id st "PATH" "service-log" (some (serviceLogDir originIni)) with
    | .error e => .error e
    | .ok st2 => .ok (some (serviceLogDir originIni), st2)

theorem hasOption_eq_isSome (xf : String → String) (st : Store) (s o : String) :
    hasOption xf st s o = (getRaw st s (xf o)).isSome := by
  unfold hasOption getRaw
  cases lookupSec st s <;> rfl

theorem cfgGet_of_getRaw (xf : String → String) (st : Store) (s o : String) (v : Value)
    (h : getRaw st s (xf o) = some v) :
    cfgGet xf st s o = .ok v := by
  unfold getRaw at h
  unfold cfgGet
  cases hsec : lookupSec st s with
  | none => rw [hsec] at h; simp at h
  | some sec =>
    rw [hsec] at h
    simp only at h
    simp only [h]

/-- C8: the service-log getter is memoized and stable.  When the option is
already present, its stored value is returned with the document untouched
and the result does not depend on the secondary ini at all.  When it is
absent (and the PATH section exists, as the required options guarantee),
the derived directory is stored back under (PATH, service-log) and a
second call — against any secondary ini — returns the same value and the
same document. -/
theorem service_log_memoization (st originIni originIni2 : Store)
    (hPath : (lookupSec st "PATH").isSome = true) :
    (∀ v, getRaw st "PATH" "service-log" = some v →
        getPathServiceLog st originIni = .ok (v, st)
        ∧ getPathServiceLog st originIni2 = getPathServiceLog st originIni)
    ∧ (hasOption id st "PATH" "service-log" = false →
        getPathServiceLog st originIni
          = .ok (some (serviceLogDir originIni),
                 setOpt st "PATH" "service-log" (some (serviceLogDir originIni)))
        ∧ getRaw (setOpt st "PATH" "service-log" (some (serviceLogDir originIni)))
            "PATH" "service-log" = some (some (serviceLogDir originIni))
        ∧ getPathServiceLog
            (setOpt st "PATH" "service-log" (some (serviceLogDir originIni))) originIni2
          = .ok (some (serviceLogDir originIni),
                 setOpt st "PATH" "service-log" (some (serviceLogDir originIni)))) := by
  constructor
  · intro v hv
    have hopt : hasOption id st "PATH" "service-log" = true := by
      rw [hasOption_eq_isSome, id_eq, hv]
      rfl
    have hget : cfgGet id st "PATH" "service-log" = .ok v :=
      cfgGet_of_getRaw id st "PATH" "service-log" v (by rw [id_eq]; exact hv)
    constructor
    · simp [getPathServiceLog, hopt, hget]
    · simp [getPathServiceLog, hopt, hget]
  · intro hopt
    have hset : setOptE id st "PATH" "service-log" (some (serviceLogDir originIni))
        = .ok (setOpt st "PATH" "service-log" (some (serviceLogDir originIni))) := by
      rw [setOptE_ok id st "PATH" "service-log" (some (serviceLogDir originIni)) hPath, id_eq]
    have hraw : getRaw (setOpt st "PATH" "service-log" (some (serviceLogDir originIni)))
        "PATH" "service-log" = some (some (serviceLogDir originIni)) := by
      rw [getRaw_setOpt]
      simp
    refine ⟨?_, hraw, ?_⟩
    · simp [getPathServiceLog, hopt, hset]
    · have hopt2 : hasOption id
          (setOpt st "PATH" "service-log" (some (serviceLogDir originIni)))
          "PATH" "service-log" = true := by
        rw [hasOption_eq_isSome, id_eq, hraw]
        rfl
      have hget2 : cfgGet id (setOpt st "PATH" "service-log" (some (serviceLogDir originIni)))
          "PATH" "service-log" = .ok (some (serviceLogDir originIni)) :=
        cfgGet_of_getRaw id _ "PATH" "service-log" _ (by rw [id_eq]; exact hraw)
      simp [getPathServiceLog, hopt2, hget2]

/-- Witness for `service_log_memoization`: a configuration with a PATH
section but no service-log option derives `/var/log/bhs` as the dirname of
the secondary ini's logfile `/var/log/bhs/app.log`, stores it back, and a
second call (even against an empty ini) is stable; a configuration already
holding the option returns it untouched. -/
theorem service_log_memoization_witness :
    (getPathServiceLog [("PATH", [("service-log", some "/tmp/log")])]
        [("LOG", [("logfile", some "/var/log/bhs/app.log")])]
      = .ok (some "/tmp/log", [("PATH", [("service-log", some "/tmp/log")])]))
    ∧ (getPathServiceLog [("PATH", [("service-venv", some "/opt/v")])]
        [("LOG", [("logfile", some "/var/log/bhs/app.log")])]
      = .ok (some (serviceLogDir [("LOG", [("logfile", some "/var/log/bhs/app.log")])]),
             setOpt [("PATH", [("service-venv", some "/opt/v")])] "PATH" "service-log"
               (some (serviceLogDir [("LOG", [("logfile", some "/var/log/bhs/app.log")])])))) :=
  ⟨((service_log_memoization [("PATH", [("service-log", some "/tmp/log")])]
      [("LOG", [("logfile", some "/var/log/bhs/app.log")])] [] rfl).1
      (some "/tmp/log") rfl).1,
   ((service_log_memoization [("PATH", [("service-venv", some "/opt/v")])]
      [("LOG", [("logfile", some "/var/log/bhs/app.log")])] [] rfl).2 rfl).1⟩

/-! ## C9: `CommandlineConfig.__init__`

The non-interactive path (`len(sys.argv) >= 2`): `sys.argv[1]` is the
config-file argument, `sys.argv[2:]` are the flags.  The flag loop sets
the corresponding mode for `--db:test`, `--uninstall`/`-u`, `--start` and
(only in the `_inscommon` variant, `updateRecognized = true`)
`--update-only`, and raises the uniform `InstallationException` with
"Parameter not recognized: <arg>. <USAGE>" at the first flag outside that
set.  Afterwards: a missing path is retried as
`./install/<name>.install.ini` and failing that raises; a non-regular
file raises; uninstall combined with immediate start raises; an unreadable
file raises (PermissionError rewrap).  `CmdlineFS` lists the paths that
exist (`os.path.exists`), are regular files (`os.path.isfile`) and are
readable under the current security context. -/

inductive CmdErr where
  | unrecognized (arg : String)
  | badPath (p : String)
  | notAFile (p : String)
  | contradiction
  | permission (p : String)
deriving DecidableEq

structure CmdCfg where
  dbtestMode : Bool
  install : Bool
  startImmediately : Bool
  updateOnly : Bool
  configFile : String
deriving DecidableEq

def recognizedArg (updateRecognized : Bool) (arg : String) : Bool :=
  arg == "--db:test" || arg == "--uninstall" || arg == "-u" || arg == "--start"
    || (updateRecognized && arg == "--update-only")

def parseArgs (u : Bool) : CmdCfg → List String → Except CmdErr CmdCfg
  | cfg, [] => .ok cfg
  | cfg, arg :: rest =>
    if arg = "--db:test" then
      parseArgs u { cfg with dbtestMode := true } rest
    else if arg = "--uninstall" ∨ arg = "-u" then
      parseArgs u { cfg with install := false } rest
    else if arg = "--start" then
      parseArgs u { cfg with startImmediately := true } rest
    else if u = true ∧ arg = "--update-only" then
      parseArgs u { cfg with updateOnly := true } rest
    else .error (.unrecognized arg)

structure CmdlineFS where
  pathsExisting : List String
  regularFiles : List String
  readable : List String
deriving DecidableEq

def resolveConfig (fs : CmdlineFS) (cfg : CmdCfg) : Except CmdErr CmdCfg :=
  match (if fs.pathsExisting.contains cfg.configFile then Except.ok cfg.configFile
         else if fs.pathsExisting.contains ("./install/" ++ cfg.configFile ++ ".install.ini")
         then Except.ok ("./install/" ++ cfg.configFile ++ ".install.ini")
         else Except.error (CmdErr.badPath
           ("./install/" ++ cfg.configFile ++ ".install.ini"))) with
  | .error e => .error e
  | .ok cf =>
    if fs.regularFiles.contains cf = false then .error (.notAFile cf)
    else if cfg.install = false ∧ cfg.startImmediately = true then .error .contradiction
    else if fs.readable.contains cf = false then .error (.permission cf)
    else .ok { cfg with configFile := cf }

def commandlineInit (u : Bool) (fs : CmdlineFS) (configFileArg : String)
    (args : List String) : Except CmdErr CmdCfg :=
  match parseArgs u ⟨false, true, false, false, configFileArg⟩ args with
  | .error e => .error e
  | .ok cfg => resolveConfig fs cfg

/-- The text of the unrecognized-flag exception, parametric in the
script's USAGE string. -/
def unrecognizedMessage (arg usage : String) : String :=
  "Parameter not recognized: " ++ arg ++ ". " ++ usage

theorem parseArgs_install_mono (u : Bool) (args : List String) :
    ∀ cfg cfg', parseArgs u cfg args = .ok cfg' → cfg.install = false →
      cfg'.install = false := by
  induction args with
  | nil =>
    intro cfg cfg' h hi
    simp only [parseArgs] at h
    cases h
    exact hi
  | cons arg rest ih =>
    intro cfg cfg' h hi
    simp only [parseArgs] at h
    by_cases h1 : arg = "--db:test"
    · rw [if_pos h1] at h; exact ih _ _ h hi
    · rw [if_neg h1] at h
      by_cases h2 : arg = "--uninstall" ∨ arg = "-u"
      · rw [if_pos h2] at h; exact ih _ _ h rfl
      · rw [if_neg h2] at h
        by_cases h3 : arg = "--start"
        · rw [if_pos h3] at h; exact ih _ _ h hi
        · rw [if_neg h3] at h
          by_cases h4 : u = true ∧ arg = "--update-only"
          · rw [if_pos h4] at h; exact ih _ _ h hi
          · rw [if_neg h4] at h; cases h

theorem parseArgs_start_mono (u : Bool) (args : List String) :
    ∀ cfg cfg', parseArgs u cfg args = .ok cfg' → cfg.startImmediately = true →
      cfg'.startImmediately = true := by
  induction args with
  | nil =>
    intro cfg cfg' h hs
    simp only [parseArgs] at h
    cases h
    exact hs
  | cons arg rest ih =>
    intro cfg cfg' h hs
    simp only [parseArgs] at h
    by_cases h1 : arg = "--db:test"
    · rw [if_pos h1] at h; exact ih _ _ h hs
    · rw [if_neg h1] at h
      by_cases h2 : arg = "--uninstall" ∨ arg = "-u"
      · rw [if_pos h2] at h; exact ih _ _ h hs
      · rw [if_neg h2] at h
        by_cases h3 : arg = "--start"
        · rw [if_pos h3] at h; exact ih _ _ h rfl
        · rw [if_neg h3] at h
          by_cases h4 : u = true ∧ arg = "--update-only"
          · rw [if_pos h4] at h; exact ih _ _ h hs
          · rw [if_neg h4] at h; cases h

theorem parseArgs_uninstall (u : Bool) (args : List String) :
    ∀ cfg cfg', parseArgs u cfg args = .ok cfg' →
      ("--uninstall" ∈ args ∨ "-u" ∈ args) → cfg'.install = false := by
  induction args with
  | nil =>
    intro cfg cfg' _ hm
    rcases hm with hm | hm <;> simp at hm
  | cons arg rest ih =>
    intro cfg cfg' h hm
    simp only [parseArgs] at h
    by_cases h2 : arg = "--uninstall" ∨ arg = "-u"
    · have h1 : ¬ arg = "--db:test" := by
        rcases h2 with h2 | h2 <;> rw [h2] <;> decide
      rw [if_neg h1, if_pos h2] at h
      exact parseArgs_install_mono u rest _ _ h rfl
    · have hmem : "--uninstall" ∈ rest ∨ "-u" ∈ rest := by
        rcases hm with hm | hm <;> rcases List.mem_cons.mp hm with heq | hmem
        · exact absurd heq.symm (fun hh => h2 (Or.inl hh))
        · exact Or.inl hmem
        · exact absurd heq.symm (fun hh => h2 (Or.inr hh))
        · exact Or.inr hmem
      by_cases h1 : arg = "--db:test"
      · rw [if_pos h1] at h; exact ih _ _ h hmem
      · rw [if_neg h1, if_neg h2] at h
        by_cases h3 : arg = "--start"
        · rw [if_pos h3] at h; exact ih _ _ h hmem
        · rw [if_neg h3] at h
          by_cases h4 : u = true ∧ arg = "--update-only"
          · rw [if_pos h4] at h; exact ih _ _ h hmem
          · rw [if_neg h4] at h; cases h

theorem parseArgs_startFlag (u : Bool) (args : List String) :
    ∀ cfg cfg', parseArgs u cfg args = .ok cfg' →
      "--start" ∈ args → cfg'.startImmediately = true := by
  induction args with
  | nil =>
    intro cfg cfg' _ hm
    simp at hm
  | cons arg rest ih =>
    intro cfg cfg' h hm
    simp only [parseArgs] at h
    by_cases h3 : arg = "--start"
    · have h1 : ¬ arg = "--db:test" := by rw [h3]; decide
      have h2 : ¬ (arg = "--uninstall" ∨ arg = "-u") := by
        rw [h3]; decide
      rw [if_neg h1, if_neg h2, if_pos h3] at h
      exact parseArgs_start_mono u rest _ _ h rfl
    · have hmem : "--start" ∈ rest := by
        rcases List.mem_cons.mp hm with heq | hmem
        · exact absurd heq.symm h3
        · exact hmem
      by_cases h1 : arg = "--db:test"
      · rw [if_pos h1] at h; exact ih _ _ h hmem
      · rw [if_neg h1] at h
        by_cases h2 : arg = "--uninstall" ∨ arg = "-u"
        · rw [if_pos h2] at h; exact ih _ _ h hmem
        · rw [if_neg h2, if_neg h3] at h
          by_cases h4 : u = true ∧ arg = "--update-only"
          · rw [if_pos h4] at h; exact ih _ _ h hmem
          · rw [if_neg h4] at h; cases h

theorem recognizedArg_false_elim (u : Bool) (arg : String)
    (h1 : ¬ arg = "--db:test") (h2 : ¬ (arg = "--uninstall" ∨ arg = "-u"))
    (h3 : ¬ arg = "--start") (h4 : ¬ (u = true ∧ arg = "--update-only")) :
    recognizedArg u arg = false := by
  have h2a : ¬ arg = "--uninstall" := fun hh => h2 (Or.inl hh)
  have h2b : ¬ arg = "-u" := fun hh => h2 (Or.inr hh)
  cases u with
  | false => simp [recognizedArg, h1, h2a, h2b, h3]
  | true =>
    have h4' : ¬ arg = "--update-only" := fun hh => h4 ⟨rfl, hh⟩
    simp [recognizedArg, h1, h2a, h2b, h3, h4']

theorem parseArgs_unrecognized (u : Bool) (args : List String) :
    ∀ cfg a₀, args.find? (fun a => !recognizedArg u a) = some a₀ →
      parseArgs u cfg args = .error (.unrecognized a₀) := by
  induction args with
  | nil =>
    intro cfg a₀ h
    simp at h
  | cons arg rest ih =>
    intro cfg a₀ h
    cases hr : recognizedArg u arg with
    | false =>
      have ha : arg = a₀ := by
        rw [List.find?_cons_of_pos _ (by simp [hr])] at h
        exact Option.some.inj h
      subst ha
      have hnd : ¬ arg = "--db:test" := by
        intro hh; rw [hh] at hr; simp [recognizedArg] at hr
      have hnu : ¬ (arg = "--uninstall" ∨ arg = "-u") := by
        intro hh; rcases hh with hh | hh <;> rw [hh] at hr <;> simp [recognizedArg] at hr
      have hns : ¬ arg = "--start" := by
        intro hh; rw [hh] at hr; simp [recognizedArg] at hr
      have hno : ¬ (u = true ∧ arg = "--update-only") := by
        intro hh; rw [hh.2, hh.1] at hr; simp [recognizedArg] at hr
      simp only [parseArgs, if_neg hnd, if_neg hnu, if_neg hns, if_neg hno]
    | true =>
      have hrest : rest.find? (fun a => !recognizedArg u a) = some a₀ := by
        rw [List.find?_cons_of_neg _ (by simp [hr])] at h
        exact h
      simp only [parseArgs]
      by_cases h1 : arg = "--db:test"
      · rw [if_pos h1]; exact ih _ _ hrest
      · rw [if_neg h1]
        by_cases h2 : arg = "--uninstall" ∨ arg = "-u"
        · rw [if_pos h2]; exact ih _ _ hrest
        · rw [if_neg h2]
          by_cases h3 : arg = "--start"
          · rw [if_pos h3]; exact ih _ _ hrest
          · rw [if_neg h3]
            by_cases h4 : u = true ∧ arg = "--update-only"
            · rw [if_pos h4]; exact ih _ _ hrest
            · exact absurd hr (by
                rw [recognizedArg_false_elim u arg h1 h2 h3 h4]; decide)

theorem parseArgs_ok_all_recognized (u : Bool) (args : List String) :
    ∀ cfg cfg', parseArgs u cfg args = .ok cfg' →
      ∀ a ∈ args, recognizedArg u a = true := by
  induction args with
  | nil =>
    intro cfg cfg' _ a ha
    simp at ha
  | cons arg rest ih =>
    intro cfg cfg' h a ha
    simp only [parseArgs] at h
    by_cases h1 : arg = "--db:test"
    · rw [if_pos h1] at h
      rcases List.mem_cons.mp ha with heq | hmem
      · rw [heq, h1]; simp [recognizedArg]
      · exact ih _ _ h a hmem
    · rw [if_neg h1] at h
      by_cases h2 : arg = "--uninstall" ∨ arg = "-u"
      · rw [if_pos h2] at h
        rcases List.mem_cons.mp ha with heq | hmem
        · rcases h2 with h2 | h2 <;> rw [heq, h2] <;> simp [recognizedArg]
        · exact ih _ _ h a hmem
      · rw [if_neg h2] at h
        by_cases h3 : arg = "--start"
        · rw [if_pos h3] at h
          rcases List.mem_cons.mp ha with heq | hmem
          · rw [heq, h3]; simp [recognizedArg]
          · exact ih _ _ h a hmem
        · rw [if_neg h3] at h
          by_cases h4 : u = true ∧ arg = "--update-only"
          · rw [if_pos h4] at h
            rcases List.mem_cons.mp ha with heq | hmem
            · rw [heq, h4.2, h4.1]; simp [recognizedArg]
            · exact ih _ _ h a hmem
          · rw [if_neg h4] at h; cases h

theorem resolveConfig_contradiction (fs : CmdlineFS) (cfg : CmdCfg)
    (hi : cfg.install = false) (hs : cfg.startImmediately = true) :
    isOkE (resolveConfig fs cfg) = false := by
  unfold resolveConfig
  split
  · rfl
  next x cf heq =>
    by_cases h1 : fs.regularFiles.contains cf = false
    · rw [if_pos h1]; rfl
    · rw [if_neg h1, if_pos ⟨hi, hs⟩]; rfl

/-- C9: a command line containing an uninstall flag together with
`--start` never gets past `CommandlineConfig.__init__` (some uniform
installation exception is raised: the contradiction error when the config
file resolves, a path error otherwise); a command line containing a flag
outside the recognized set raises the installation exception for the first
such flag, whose message names the offending argument; and whenever
parsing returns normally, every flag was recognized and the
uninstall/start combination was absent. -/
theorem commandline_flag_validation (u : Bool) (fs : CmdlineFS)
    (configFileArg usage : String) (args : List String) :
    ((("--uninstall" ∈ args ∨ "-u" ∈ args) ∧ "--start" ∈ args) →
        isOkE (commandlineInit u fs configFileArg args) = false)
    ∧ (∀ a₀, args.find? (fun a => !recognizedArg u a) = some a₀ →
        commandlineInit u fs configFileArg args = .error (.unrecognized a₀)
        ∧ IsSubstr a₀ (unrecognizedMessage a₀ usage))
    ∧ (∀ cfg, commandlineInit u fs configFileArg args = .ok cfg →
        (∀ a ∈ args, recognizedArg u a = true)
        ∧ ¬ (("--uninstall" ∈ args ∨ "-u" ∈ args) ∧ "--start" ∈ args)) := by
  have hA : (("--uninstall" ∈ args ∨ "-u" ∈ args) ∧ "--start" ∈ args) →
      isOkE (commandlineInit u fs configFileArg args) = false := by
    intro hb
    obtain ⟨hu, hs⟩ := hb
    unfold commandlineInit
    cases hp : parseArgs u ⟨false, true, false, false, configFileArg⟩ args with
    | error e => rfl
    | ok cfg =>
      exact resolveConfig_contradiction fs cfg
        (parseArgs_uninstall u args _ _ hp hu)
        (parseArgs_startFlag u args _ _ hp hs)
  refine ⟨hA, ?_, ?_⟩
  · intro a₀ hfind
    constructor
    · unfold commandlineInit
      rw [parseArgs_unrecognized u args _ a₀ hfind]
    · exact ⟨"Parameter not recognized: ", ". " ++ usage, by
        simp [unrecognizedMessage, String.append_assoc]⟩
  · intro cfg hok
    constructor
    · unfold commandlineInit at hok
      cases hp : parseArgs u ⟨false, true, false, false, configFileArg⟩ args with
      | error e => rw [hp] at hok; cases hok
      | ok c => exact parseArgs_ok_all_recognized u args _ _ hp
    · intro hboth
      have hf := hA hboth
      rw [hok] at hf
      simp [isOkE] at hf

/-- Witness for `commandline_flag_validation`: with an existing, regular,
readable config file, `-u --start` is rejected, `--frobnicate` is rejected
naming the flag, and `-u` alone passes parsing. -/
theorem commandline_flag_validation_witness :
    isOkE (commandlineInit true ⟨["cfg.ini"], ["cfg.ini"], ["cfg.ini"]⟩ "cfg.ini"
        ["-u", "--start"]) = false
    ∧ (commandlineInit true ⟨["cfg.ini"], ["cfg.ini"], ["cfg.ini"]⟩ "cfg.ini"
        ["--frobnicate"] = .error (.unrecognized "--frobnicate")
      ∧ IsSubstr "--frobnicate" (unrecognizedMessage "--frobnicate" "USAGE"))
    ∧ ((∀ a ∈ (["-u"] : List String), recognizedArg true a = true)
      ∧ ¬ (("--uninstall" ∈ (["-u"] : List String) ∨ "-u" ∈ (["-u"] : List String))
            ∧ "--start" ∈ (["-u"] : List String))) :=
  ⟨(commandline_flag_validation true ⟨["cfg.ini"], ["cfg.ini"], ["cfg.ini"]⟩ "cfg.ini"
      "USAGE" ["-u", "--start"]).1 (by decide),
   (commandline_flag_validation true ⟨["cfg.ini"], ["cfg.ini"], ["cfg.ini"]⟩ "cfg.ini"
      "USAGE" ["--frobnicate"]).2.1 "--frobnicate" (by decide),
   (commandline_flag_validation true ⟨["cfg.ini"], ["cfg.ini"], ["cfg.ini"]⟩ "cfg.ini"
      "USAGE" ["-u"]).2.2 ⟨false, false, false, false, "cfg.ini"⟩ (by decide)⟩

/-! ## C10: `ApacheModWsgiConfigurator.setup_on_startup`

The method reads the startup script's lines, scans them once with a
counter: a line whose `strip()` equals the startup command marks the file
as already set up, and a line whose `strip()` equals "exit 0" *overwrites*
`exit_0_index` with the current position (so multiple occurrences leave
the index of the last).  When not already set up, the command block —
blank line, command line, blank line (`os.linesep` is "\n" on the target
Linux host) — is spliced in at that index (or appended at the end when no
"exit 0" line exists) and the file is rewritten; otherwise the file is
left untouched. -/

def scanLoop (cmd : String) : List String → Bool → Option Nat → Nat → Bool × Option Nat
  | [], setUp, idx, _ => (setUp, idx)
  | line :: rest, setUp, idx, i =>
    scanLoop cmd rest (setUp || (pyStrip line == cmd))
      (if pyStrip line == "exit 0" then some i else idx) (i + 1)

def insertIndex (cmd : String) (content : List String) : Nat :=
  match (scanLoop cmd content false none 0).2 with
  | some i => i
  | none => content.length

def setupOnStartup (cmd : String) (content : List String) : List String :=
  if (scanLoop cmd content false none 0).1 then content
  else
    content.take (insertIndex cmd content) ++ ["\n", cmd ++ "\n", "\n"]
      ++ content.drop (insertIndex cmd content)

/-- Index of the last element satisfying `p`, specified by direct
recursion: a match in the tail wins over a match at the head. -/
def lastIdxWhere {α : Type} (p : α → Bool) : List α → Option Nat
  | [] => none
  | x :: xs =>
    match lastIdxWhere p xs with
    | some j => some (j + 1)
    | none => if p x then some 0 else none

theorem scanLoop_fst (cmd : String) (content : List String) :
    ∀ b idx i, (scanLoop cmd content b idx i).1
      = (b || content.any (fun l => pyStrip l == cmd)) := by
  induction content with
  | nil => intro b idx i; simp [scanLoop]
  | cons line rest ih =>
    intro b idx i
    simp only [scanLoop, ih, List.any_cons]
    cases b <;> cases pyStrip line == cmd <;> simp

theorem scanLoop_snd (cmd : String) (content : List String) :
    ∀ b idx i, (scanLoop cmd content b idx i).2
      = (match lastIdxWhere (fun l => pyStrip l == "exit 0") content with
         | some j => some (i + j)
         | none => idx) := by
  induction content with
  | nil => intro b idx i; simp [scanLoop, lastIdxWhere]
  | cons line rest ih =>
    intro b idx i
    simp only [scanLoop, ih, lastIdxWhere]
    cases hl : lastIdxWhere (fun l => pyStrip l == "exit 0") rest with
    | some j =>
      simp only []
      congr 1
      omega
    | none =>
      by_cases hp : (pyStrip line == "exit 0") = true
      · simp [hp]
      · simp [hp]

theorem insertIndex_eq (cmd : String) (content : List String) :
    insertIndex cmd content
      = (lastIdxWhere (fun l => pyStrip l == "exit 0") content).getD content.length := by
  unfold insertIndex
  rw [scanLoop_snd]
  cases lastIdxWhere (fun l => pyStrip l == "exit 0") content with
  | some j => simp
  | none => simp

/-- C10 counterexample: with the startup command absent and two
"exit 0" lines, the command block is inserted before the **last**
"exit 0" line (the scan keeps overwriting the remembered index), not
before the first one as the claim states. -/
theorem startup_insert_before_last_cex :
    setupOnStartup "CMD" ["exit 0\n", "echo hi\n", "exit 0\n"]
      = ["exit 0\n", "echo hi\n", "\n", "CMD\n", "\n", "exit 0\n"]
    ∧ setupOnStartup "CMD" ["exit 0\n", "echo hi\n", "exit 0\n"]
      ≠ ["\n", "CMD\n", "\n", "exit 0\n", "echo hi\n", "exit 0\n"] := by
  constructor
  · rfl
  · decide

/-- C10 (amended): adding the Apache startup command is idempotent — if
some line already equals the command after stripping surrounding
whitespace, the file is left unchanged.  Otherwise a block of blank line,
command line, blank line is inserted at the position of the **last** line
equal to "exit 0" (appended at the end when no such line exists), and all
pre-existing lines are preserved in their original order around the
inserted block. -/
theorem setup_on_startup_amended (cmd : String) (content : List String) :
    ((∃ l ∈ content, pyStrip l = cmd) → setupOnStartup cmd content = content)
    ∧ ((∀ l ∈ content, pyStrip l ≠ cmd) →
        setupOnStartup cmd content =
          content.take ((lastIdxWhere (fun l => pyStrip l == "exit 0") content).getD
            content.length)
          ++ ["\n", cmd ++ "\n", "\n"]
          ++ content.drop ((lastIdxWhere (fun l => pyStrip l == "exit 0") content).getD
            content.length)) := by
  constructor
  · intro h
    obtain ⟨l, hl, he⟩ := h
    have hany : content.any (fun l => pyStrip l == cmd) = true :=
      List.any_eq_true.mpr ⟨l, hl, by simp [he]⟩
    simp [setupOnStartup, scanLoop_fst, hany]
  · intro h
    have hany : content.any (fun l => pyStrip l == cmd) = false := by
      rw [List.any_eq_false]
      intro l hl
      simp [h l hl]
    rw [setupOnStartup, scanLoop_fst, insertIndex_eq]
    simp [hany]

/-- Witness for `setup_on_startup_amended`: a script already containing
the command (amid whitespace) is left unchanged; a script without it gets
the block inserted before its "exit 0" line. -/
theorem setup_on_startup_amended_witness :
    setupOnStartup "sudo /srv/apachectl start"
        ["#!/bin/sh\n", "sudo /srv/apachectl start\n", "exit 0\n"]
      = ["#!/bin/sh\n", "sudo /srv/apachectl start\n", "exit 0\n"]
    ∧ setupOnStartup "CMD" ["a\n", "exit 0\n"]
      = (["a\n", "exit 0\n"].take
          ((lastIdxWhere (fun l => pyStrip l == "exit 0") ["a\n", "exit 0\n"]).getD
            (["a\n", "exit 0\n"] : List String).length)
        ++ ["\n", "CMD\n", "\n"]
        ++ (["a\n", "exit 0\n"].drop
          ((lastIdxWhere (fun l => pyStrip l == "exit 0") ["a\n", "exit 0\n"]).getD
            (["a\n", "exit 0\n"] : List String).length))) :=
  ⟨(setup_on_startup_amended "sudo /srv/apachectl start"
      ["#!/bin/sh\n", "sudo /srv/apachectl start\n", "exit 0\n"]).1
      ⟨"sudo /srv/apachectl start\n", by simp, by rfl⟩,
   (setup_on_startup_amended "CMD" ["a\n", "exit 0\n"]).2 (by decide)⟩

end BHS
